import Mathlib

/-!
# Verification of `rabbit-lru-cache`

A shallow embedding of `src/rabbit-lru-cache.ts`: a distributed,
invalidation-coherent LRU cache over a fanout message bus.

Modelling decisions:

* JavaScript values of the cached type `T` are modelled as `Option V`, where
  `none` stands for `null` / `undefined` and `some v` for a well-defined
  value.  The LRU store is an association list `List (String × Option V)`
  (the external `lru-cache` container can in principle hold `null`, so the
  inner `Option` is kept; the invariant theorems show the code never stores
  a `none`).
* `loadItemPromises` (the inflight table) is modelled by the list of keys
  that currently hold a pending promise.
* The two state booleans `closing` and `reconnecting`, the configuration
  read by the operations (`allowStaleData`, LRU inspector values) and the
  event-emitter listener registries are fields of `CacheState`.
* Asynchronous control flow is split at its suspension points:
  `getOrLoad` becomes a synchronous begin phase (`getOrLoadBegin`, up to and
  including registering the promise) and a synchronous resolution phase
  (`getOrLoadResolve` / `getOrLoadReject`, the code after `await`).
  Interleavings of concurrent calls are sequences of these atomic phases,
  matching the single-threaded cooperative semantics of the source.
* `handleConnectionError` returns, besides the updated state, the ordered
  trace of its externally visible micro-actions (state clears, event
  emissions, retry scheduling), so that ordering claims can be stated.
* TTL-based eviction, sizes and ages live inside the external `lru-cache`
  collaborator and are out of scope; its inspectors are modelled as reads
  of configuration fields, and `prune` (an eager TTL purge) as the identity
  on the modelled store.
-/

namespace RabbitLRU

/-- `ClosingError` thrown by `assertIsClosingOrClosed`
(`src/errors/ClosingError`). -/
structure ClosingError where
  message : String
deriving Repr, DecidableEq

/-- The error thrown by the consume callback when RabbitMQ cancels the
consumer (`onMessage` receiving `null`). -/
structure ConsumerCancelledError where
  message : String
deriving Repr, DecidableEq

/-- A bus message: UTF-8 content plus the `x-cache-id` header. -/
structure Msg where
  content : String
  publisherCacheId : String
deriving Repr, DecidableEq

/-- The mutable state owned by one `createRabbitLRUCache` instance, plus the
configuration the operations read.  Listener registries hold opaque listener
identities (`Nat`), appended in registration order as `EventEmitter` does. -/
structure CacheState (V : Type) where
  cacheId : String
  allowStaleData : Bool
  lruAllowStale : Bool
  lruMax : Nat
  lruMaxAge : Nat
  closing : Bool
  reconnecting : Bool
  cache : List (String × Option V)
  inflight : List String
  invalidationListeners : List Nat
  reconnectingListeners : List Nat
  reconnectedListeners : List Nat
deriving Repr, DecidableEq

namespace CacheState

/-- `cache.get(key)` of the external LRU store: `none` when the key is
absent, `some w` when the key maps to the stored JS value `w`. -/
def cacheGet {V : Type} (s : CacheState V) (key : String) : Option (Option V) :=
  match s.cache.find? (fun p => p.1 == key) with
  | some p => some p.2
  | none => none

end CacheState

/-- `cache.set(key, value)` of the external LRU store on the modelled
association list. -/
def cacheSet {V : Type} (key : String) (v : Option V)
    (c : List (String × Option V)) : List (String × Option V) :=
  (key, v) :: c.filter (fun p => p.1 ≠ key)

/-- `internalReset` (`rabbit-lru-cache.ts:61`): empties the inflight
table and resets the LRU store. -/
def internalReset {V : Type} (s : CacheState V) : CacheState V :=
  { s with inflight := [], cache := [] }

/-- `internalDel` (`rabbit-lru-cache.ts:66`): drops the key's pending
promise, if any, and deletes the key from the LRU store. -/
def internalDel {V : Type} (key : String) (s : CacheState V) : CacheState V :=
  { s with
    inflight := s.inflight.filter (fun k => k ≠ key),
    cache := s.cache.filter (fun p => p.1 ≠ key) }

/-- `assertIsClosingOrClosed` (`rabbit-lru-cache.ts:146`). -/
def assertIsClosingOrClosed {V : Type} (s : CacheState V) :
    Except ClosingError Unit :=
  if s.closing then
    .error ⟨"Cache is closing or has been closed"⟩
  else
    .ok ()

/-- `publish` (`rabbit-lru-cache.ts:159`): while reconnecting nothing is
published; otherwise the message goes out tagged with this instance's
`cacheId`.  Returns the message put on the bus, if any. -/
def publish {V : Type} (message : String) (s : CacheState V) : Option Msg :=
  if s.reconnecting then
    none
  else
    some ⟨message, s.cacheId⟩

/-- Outcome of the synchronous begin phase of `getOrLoad`
(`rabbit-lru-cache.ts:195`–`204`): a cache hit returning a stored value, a
join of an already pending promise, or the start of a fresh loader
invocation. -/
inductive LoadOutcome (V : Type) where
  /-- `cache.get(key)` returned a value that is neither `undefined` nor
  `null`; it is returned immediately. -/
  | hit (v : V)
  /-- `loadItemPromises[key]` is pending; this caller awaits that same
  promise and will receive its result. -/
  | join
  /-- The loader is invoked and its promise is placed into
  `loadItemPromises[key]`. -/
  | startLoad
deriving Repr, DecidableEq

/-- Recognizes the outcome that invokes the loader. -/
def LoadOutcome.isStartLoad {V : Type} : LoadOutcome V → Bool
  | .startLoad => true
  | _ => false

/-- The begin phase of `getOrLoad` (`rabbit-lru-cache.ts:195`–`204`):
everything up to the first `await`.  Raises `ClosingError` when closing;
otherwise returns a hit, joins the pending promise, or registers a new
loader promise under the key. -/
def getOrLoadBegin {V : Type} (key : String) (s : CacheState V) :
    Except ClosingError (LoadOutcome V × CacheState V) := do
  let _ ← assertIsClosingOrClosed s
  match s.cacheGet key with
  | some (some v) => return (.hit v, s)
  | _ =>
    if s.inflight.contains key then
      return (.join, s)
    else
      return (.startLoad, { s with inflight := key :: s.inflight })

/-- The resolution phase of `getOrLoad` (`rabbit-lru-cache.ts:205`–`218`):
the code that runs when the awaited loader promise for `key` resolves with
`loadedItem` (`none` models `null`/`undefined`).  The value is stored only
when `(allowStaleData || !reconnecting) && loadItemPromises[key]` holds and
the value is well defined; the `finally` block then deletes the entry when
still present; the loaded value is returned in every case. -/
def getOrLoadResolve {V : Type} (key : String) (loadedItem : Option V)
    (s : CacheState V) : Option V × CacheState V :=
  let store := (s.allowStaleData || !s.reconnecting)
      && s.inflight.contains key && loadedItem.isSome
  let s₁ := if store then { s with cache := cacheSet key loadedItem s.cache } else s
  let s₂ := { s₁ with inflight := s₁.inflight.filter (fun k => k ≠ key) }
  (loadedItem, s₂)

/-- The rejection path of `getOrLoad`: the loader promise rejects, the
`finally` block (`rabbit-lru-cache.ts:213`–`217`) deletes the entry when
still present, and the rejection propagates to the caller. -/
def getOrLoadReject {V : Type} (key : String) (s : CacheState V) :
    CacheState V :=
  { s with inflight := s.inflight.filter (fun k => k ≠ key) }

/-- Facade `del` (`rabbit-lru-cache.ts:174`): assert not closing, publish
`del:<key>`, then apply `internalDel` locally.  Returns the updated state
and the message put on the bus, if any. -/
def del {V : Type} (key : String) (s : CacheState V) :
    Except ClosingError (CacheState V × Option Msg) := do
  let _ ← assertIsClosingOrClosed s
  let published := publish ("del:" ++ key) s
  return (internalDel key s, published)

/-- Facade `reset` (`rabbit-lru-cache.ts:182`): assert not closing, publish
`reset`, then apply `internalReset` locally. -/
def reset {V : Type} (s : CacheState V) :
    Except ClosingError (CacheState V × Option Msg) := do
  let _ ← assertIsClosingOrClosed s
  let published := publish "reset" s
  return (internalReset s, published)

/-- Events emitted on the local `EventEmitter`. -/
inductive Event where
  | invalidationMessageReceived (content : String) (publisherCacheId : String)
  | reconnectingEvt (attempt : Nat) (retryInterval : Nat)
  | reconnectedEvt (attempt : Nat) (retryInterval : Nat)
deriving Repr, DecidableEq

/-- The consumer callback `onMessage` (`rabbit-lru-cache.ts:97`–`113`).
A `null` delivery (broker-side consumer cancellation) throws.  A message
whose `x-cache-id` header equals the local `cacheId` is dropped before any
state change or event.  Otherwise `reset` / `del:<key>` contents are applied
and the `invalidation-message-received` event is emitted with the content
and the publisher's cache id.  Returns the updated state and the list of
emitted events. -/
def onMessage {V : Type} (msg : Option Msg) (s : CacheState V) :
    Except ConsumerCancelledError (CacheState V × List Event) :=
  match msg with
  | none => .error ⟨"consumer has been cancelled by RabbitMq"⟩
  | some m =>
    if m.publisherCacheId == s.cacheId then
      .ok (s, [])
    else
      let content := m.content
      let s' :=
        if content == "reset" then internalReset s
        else if content.startsWith "del:" then internalDel (content.drop 4) s
        else s
      .ok (s', [.invalidationMessageReceived content m.publisherCacheId])

/-- Externally visible micro-actions performed by one invocation of
`handleConnectionError`, in program order. -/
inductive SupAction where
  /-- assignment to the `reconnecting` boolean -/
  | setReconnecting (b : Bool)
  /-- a call to `internalReset` (clears inflight table and LRU store) -/
  | clearState
  /-- `eventEmitter.emit("reconnecting", error, attempt, retryInterval)` -/
  | emitReconnecting (attempt : Nat) (retryInterval : Nat)
  /-- `eventEmitter.emit("reconnected", error, attempt, retryInterval)` -/
  | emitReconnected (attempt : Nat) (retryInterval : Nat)
  /-- `setTimeout(handleConnectionError(error, attempt, retryInterval), retryInterval)` -/
  | scheduleRetry (attempt : Nat) (retryInterval : Nat)
deriving Repr, DecidableEq

/-- The next retry interval computed in the catch block of
`handleConnectionError` (`rabbit-lru-cache.ts:135`–`137`). -/
def retryStep (inc upTo ri : Nat) : Nat :=
  if ri < upTo then ri + inc else ri

/-- One invocation of `handleConnectionError`
(`rabbit-lru-cache.ts:117`–`140`), with the outcome of the reattach attempt
(connection + channels) abstracted as the boolean `connectSucceeds`.
Returns the state at the end of the invocation and the ordered trace of
micro-actions. -/
def handleConnectionError {V : Type} (connectSucceeds : Bool)
    (attempt retryInterval inc upTo : Nat) (s : CacheState V) :
    CacheState V × List SupAction :=
  if s.closing then
    (s, [])
  else
    let attempt' := attempt + 1
    let s₁ := internalReset { s with reconnecting := true }
    let trace₁ : List SupAction :=
      [.setReconnecting true, .clearState, .emitReconnecting attempt' retryInterval]
    if connectSucceeds then
      let s₂ := internalReset { s₁ with reconnecting := false }
      (s₂, trace₁ ++
        [.setReconnecting false, .clearState, .emitReconnected attempt' retryInterval])
    else
      (s₁, trace₁ ++ [.scheduleRetry attempt' (retryStep inc upTo retryInterval)])

/-- The retry interval passed to the `n`-th invocation of
`handleConnectionError` within one reconnect episode: the initial error
event passes `retryInterval = 0`, and each failed attempt applies
`retryStep` before scheduling the next one. -/
def retrySeq (inc upTo : Nat) : Nat → Nat
  | 0 => 0
  | n + 1 => retryStep inc upTo (retrySeq inc upTo n)

/-- Facade `has` (`rabbit-lru-cache.ts:219`), delegating to the external
LRU store's `has`. -/
def hasOp {V : Type} (key : String) (s : CacheState V) :
    Except ClosingError Bool := do
  let _ ← assertIsClosingOrClosed s
  return (s.cacheGet key).isSome

/-- Facade `keys` (`rabbit-lru-cache.ts:220`), delegating to the external
LRU store's `keys`. -/
def keysOp {V : Type} (s : CacheState V) : Except ClosingError (List String) := do
  let _ ← assertIsClosingOrClosed s
  return s.cache.map Prod.fst

/-- Facade `doesAllowStale` (`rabbit-lru-cache.ts:221`). -/
def doesAllowStale {V : Type} (s : CacheState V) : Except ClosingError Bool := do
  let _ ← assertIsClosingOrClosed s
  return s.lruAllowStale

/-- Facade `getItemCount` (`rabbit-lru-cache.ts:225`). -/
def getItemCount {V : Type} (s : CacheState V) : Except ClosingError Nat := do
  let _ ← assertIsClosingOrClosed s
  return s.cache.length

/-- Facade `getLength` (`rabbit-lru-cache.ts:229`); aggregate size equals
item count in the unweighted model. -/
def getLength {V : Type} (s : CacheState V) : Except ClosingError Nat := do
  let _ ← assertIsClosingOrClosed s
  return s.cache.length

/-- Facade `getMax` (`rabbit-lru-cache.ts:233`). -/
def getMax {V : Type} (s : CacheState V) : Except ClosingError Nat := do
  let _ ← assertIsClosingOrClosed s
  return s.lruMax

/-- Facade `getMaxAge` (`rabbit-lru-cache.ts:237`). -/
def getMaxAge {V : Type} (s : CacheState V) : Except ClosingError Nat := do
  let _ ← assertIsClosingOrClosed s
  return s.lruMaxAge

/-- Facade `prune` (`rabbit-lru-cache.ts:251`), delegating to the external
LRU store's TTL purge (identity on the modelled store, which carries no
ages). -/
def prune {V : Type} (s : CacheState V) : Except ClosingError (CacheState V) := do
  let _ ← assertIsClosingOrClosed s
  return s

/-- Facade `addInvalidationMessageReceivedListener`
(`rabbit-lru-cache.ts:255`): appends the listener; note the source performs
no closing assertion here. -/
def addInvalidationMessageReceivedListener {V : Type} (fn : Nat)
    (s : CacheState V) : Except ClosingError (CacheState V) :=
  .ok { s with invalidationListeners := s.invalidationListeners ++ [fn] }

/-- Facade `removeInvalidationMessageReceivedListener`
(`rabbit-lru-cache.ts:258`): removes one registration of the listener; no
closing assertion in the source. -/
def removeInvalidationMessageReceivedListener {V : Type} (fn : Nat)
    (s : CacheState V) : Except ClosingError (CacheState V) :=
  .ok { s with invalidationListeners := s.invalidationListeners.erase fn }

/-- Facade `addReconnectingListener` (`rabbit-lru-cache.ts:261`); no
closing assertion in the source. -/
def addReconnectingListener {V : Type} (fn : Nat) (s : CacheState V) :
    Except ClosingError (CacheState V) :=
  .ok { s with reconnectingListeners := s.reconnectingListeners ++ [fn] }

/-- Facade `removeReconnectingListener` (`rabbit-lru-cache.ts:264`); no
closing assertion in the source. -/
def removeReconnectingListener {V : Type} (fn : Nat) (s : CacheState V) :
    Except ClosingError (CacheState V) :=
  .ok { s with reconnectingListeners := s.reconnectingListeners.erase fn }

/-- Facade `addReconnectedListener` (`rabbit-lru-cache.ts:267`); no
closing assertion in the source. -/
def addReconnectedListener {V : Type} (fn : Nat) (s : CacheState V) :
    Except ClosingError (CacheState V) :=
  .ok { s with reconnectedListeners := s.reconnectedListeners ++ [fn] }

/-- Facade `removeReconnectedListener` (`rabbit-lru-cache.ts:270`); no
closing assertion in the source. -/
def removeReconnectedListener {V : Type} (fn : Nat) (s : CacheState V) :
    Except ClosingError (CacheState V) :=
  .ok { s with reconnectedListeners := s.reconnectedListeners.erase fn }

/-- Facade `close` (`rabbit-lru-cache.ts:241`): sets `closing`, tears down
channels and connection (bus side effects out of scope), then resets the
LRU store. -/
def close {V : Type} (s : CacheState V) : CacheState V :=
  { s with closing := true, cache := [] }

/-- One atomic step of the facade's single-threaded cooperative execution:
a facade call, a phase of an asynchronous `getOrLoad`, a bus delivery, or a
supervisor invocation. -/
inductive Op (V : Type) where
  | opDel (key : String)
  | opReset
  | opBegin (key : String)
  | opResolve (key : String) (loadedItem : Option V)
  | opReject (key : String)
  | opMessage (m : Option Msg)
  | opConnError (connectSucceeds : Bool) (attempt retryInterval inc upTo : Nat)
  | opPrune
  | opAddInvListener (fn : Nat)
  | opRemoveInvListener (fn : Nat)
  | opClose
deriving Repr, DecidableEq

/-- The state effect of one atomic step; a thrown error
(`ClosingError`, consumer cancellation) leaves the state unchanged. -/
def applyOp {V : Type} (op : Op V) (s : CacheState V) : CacheState V :=
  match op with
  | .opDel key =>
    match del key s with
    | .ok (t, _) => t
    | .error _ => s
  | .opReset =>
    match reset s with
    | .ok (t, _) => t
    | .error _ => s
  | .opBegin key =>
    match getOrLoadBegin key s with
    | .ok (_, t) => t
    | .error _ => s
  | .opResolve key loadedItem => (getOrLoadResolve key loadedItem s).2
  | .opReject key => getOrLoadReject key s
  | .opMessage m =>
    match onMessage m s with
    | .ok (t, _) => t
    | .error _ => s
  | .opConnError ok attempt ri inc upTo =>
    (handleConnectionError ok attempt ri inc upTo s).1
  | .opPrune =>
    match prune s with
    | .ok t => t
    | .error _ => s
  | .opAddInvListener fn =>
    match addInvalidationMessageReceivedListener fn s with
    | .ok t => t
    | .error _ => s
  | .opRemoveInvListener fn =>
    match removeInvalidationMessageReceivedListener fn s with
    | .ok t => t
    | .error _ => s
  | .opClose => close s

/-- The state right after a successful `createRabbitLRUCache`: empty store,
empty inflight table, connected, not closing. -/
def initState (V : Type) (cacheId : String) (allowStaleData : Bool)
    (lruAllowStale : Bool) (lruMax lruMaxAge : Nat) : CacheState V :=
  { cacheId := cacheId
    allowStaleData := allowStaleData
    lruAllowStale := lruAllowStale
    lruMax := lruMax
    lruMaxAge := lruMaxAge
    closing := false
    reconnecting := false
    cache := []
    inflight := []
    invalidationListeners := []
    reconnectingListeners := []
    reconnectedListeners := [] }

/-- A state is reachable when some sequence of atomic steps produces it
from a freshly constructed instance. -/
def Reachable {V : Type} (s : CacheState V) : Prop :=
  ∃ (cacheId : String) (allowStaleData lruAllowStale : Bool)
    (lruMax lruMaxAge : Nat) (ops : List (Op V)),
    s = ops.foldl (fun t op => applyOp op t)
      (initState V cacheId allowStaleData lruAllowStale lruMax lruMaxAge)

/-- No entry of the LRU store holds a `null`/`undefined` value. -/
def NoNullStored {V : Type} (s : CacheState V) : Prop :=
  ∀ p ∈ s.cache, (p.2).isSome

/-- `n` back-to-back begin phases of `getOrLoad` for `key` with no
interleaved resolution, bus delivery or supervisor step: the shape of `n`
concurrent callers racing on the same key in the single-threaded
cooperative runtime.  Returns the outcomes in order and the final state. -/
def beginMany {V : Type} (key : String) : Nat → CacheState V →
    List (LoadOutcome V) × CacheState V
  | 0, s => ([], s)
  | n + 1, s =>
    match getOrLoadBegin key s with
    | .ok (o, t) =>
      let r := beginMany key n t
      (o :: r.1, r.2)
    | .error _ => beginMany key n s

/-! ## Helper lemmas -/

theorem getOrLoadBegin_startLoad {V : Type} (key : String) (s : CacheState V)
    (hclose : s.closing = false) (hmiss : s.cacheGet key = none)
    (hnin : s.inflight.contains key = false) :
    getOrLoadBegin key s =
      .ok (.startLoad, { s with inflight := key :: s.inflight }) := by
  simp [getOrLoadBegin, assertIsClosingOrClosed, hclose, hmiss, hnin,
    Except.instMonad, Except.bind, Except.pure]
  simpa using hnin

theorem getOrLoadBegin_join {V : Type} (key : String) (s : CacheState V)
    (hclose : s.closing = false) (hmiss : s.cacheGet key = none)
    (hin : s.inflight.contains key = true) :
    getOrLoadBegin key s = .ok (.join, s) := by
  simp [getOrLoadBegin, assertIsClosingOrClosed, hclose, hmiss, hin,
    Except.instMonad, Except.bind, Except.pure]
  simpa using hin

theorem beginMany_all_join {V : Type} (key : String) (n : Nat)
    (s : CacheState V) (hclose : s.closing = false)
    (hmiss : s.cacheGet key = none) (hin : s.inflight.contains key = true) :
    beginMany key n s = (List.replicate n .join, s) := by
  induction n with
  | zero => rfl
  | succ k ih =>
    simp [beginMany, getOrLoadBegin_join key s hclose hmiss hin, ih,
      List.replicate]

theorem countP_startLoad_replicate_join {V : Type} (n : Nat) :
    (List.replicate n (LoadOutcome.join : LoadOutcome V)).countP
      LoadOutcome.isStartLoad = 0 := by
  induction n with
  | zero => rfl
  | succ k ih => simp [List.replicate, List.countP_cons, ih, LoadOutcome.isStartLoad]

theorem filter_idem {α : Type _} (p : α → Bool) (l : List α) :
    (l.filter p).filter p = l.filter p := by
  induction l with
  | nil => rfl
  | cons a l ih =>
    by_cases h : p a = true
    · simp [List.filter_cons, h, ih]
    · simp only [List.filter_cons, Bool.not_eq_true] at *
      simp [h, ih]

theorem internalDel_idem {V : Type} (key : String) (s : CacheState V) :
    internalDel key (internalDel key s) = internalDel key s := by
  simp [internalDel, filter_idem]

theorem getOrLoadBegin_eq {V : Type} (key : String) (s : CacheState V)
    (hclose : s.closing = false) :
    getOrLoadBegin key s =
      match s.cacheGet key with
      | some (some v) => .ok (.hit v, s)
      | _ =>
        if s.inflight.contains key then .ok (.join, s)
        else .ok (.startLoad, { s with inflight := key :: s.inflight }) := by
  simp [getOrLoadBegin, assertIsClosingOrClosed, hclose, Except.instMonad,
    Except.bind, Except.pure]

theorem getOrLoadBegin_cache {V : Type} (key : String) (s : CacheState V)
    (o : LoadOutcome V) (t : CacheState V)
    (h : getOrLoadBegin key s = .ok (o, t)) : t.cache = s.cache := by
  by_cases hc : s.closing = true
  · simp [getOrLoadBegin, assertIsClosingOrClosed, hc, Except.instMonad,
      Except.bind] at h
  · have hclose : s.closing = false := by simpa using hc
    rw [getOrLoadBegin_eq key s hclose] at h
    split at h <;> try split at h
    all_goals (simp only [Except.ok.injEq, Prod.mk.injEq] at h; rw [← h.2])

theorem applyOp_cache_cases {V : Type} (op : Op V) (s : CacheState V) :
    (applyOp op s).cache = s.cache ∨ (applyOp op s).cache = [] ∨
    (∃ key, (applyOp op s).cache = s.cache.filter (fun p => p.1 ≠ key)) ∨
    (∃ key v, (applyOp op s).cache = cacheSet key (some v) s.cache) := by
  cases op with
  | opDel key =>
    by_cases hc : s.closing = true
    · left
      simp [applyOp, del, assertIsClosingOrClosed, hc, Except.instMonad,
        Except.bind]
    · right; right; left
      refine ⟨key, ?_⟩
      simp [applyOp, del, assertIsClosingOrClosed, hc, internalDel,
        Except.instMonad, Except.bind, Except.pure]
  | opReset =>
    by_cases hc : s.closing = true
    · left
      simp [applyOp, reset, assertIsClosingOrClosed, hc, Except.instMonad,
        Except.bind]
    · right; left
      simp [applyOp, reset, assertIsClosingOrClosed, hc, internalReset,
        Except.instMonad, Except.bind, Except.pure]
  | opBegin key =>
    left
    simp only [applyOp]
    rcases hres : getOrLoadBegin key s with e | ot
    · rfl
    · obtain ⟨o, t⟩ := ot
      exact getOrLoadBegin_cache key s o t hres
  | opResolve key li =>
    simp only [applyOp, getOrLoadResolve]
    split
    · next hstore =>
      have hsome : li.isSome = true := by
        simp only [Bool.and_eq_true] at hstore
        exact hstore.2
      obtain ⟨v, rfl⟩ := Option.isSome_iff_exists.mp hsome
      right; right; right
      exact ⟨key, v, rfl⟩
    · left; rfl
  | opReject key =>
    left; rfl
  | opMessage m =>
    rcases m with - | m
    · left; rfl
    · by_cases hpq : m.publisherCacheId = s.cacheId
      · left
        simp [applyOp, onMessage, hpq]
      · by_cases hres : m.content = "reset"
        · right; left
          simp [applyOp, onMessage, hpq, hres, internalReset]
        · by_cases hpre : m.content.startsWith "del:" = true
          · right; right; left
            refine ⟨m.content.drop 4, ?_⟩
            simp [applyOp, onMessage, hpq, hres, hpre, internalDel]
          · left
            simp [applyOp, onMessage, hpq, hres, hpre]
  | opConnError ok attempt ri inc upTo =>
    by_cases hc : s.closing = true
    · left
      simp [applyOp, handleConnectionError, hc]
    · right; left
      cases ok <;>
        simp [applyOp, handleConnectionError, hc, internalReset]
  | opPrune =>
    left
    by_cases hc : s.closing = true <;>
      simp [applyOp, prune, assertIsClosingOrClosed, hc, Except.instMonad,
        Except.bind, Except.pure]
  | opAddInvListener fn =>
    left; rfl
  | opRemoveInvListener fn =>
    left; rfl
  | opClose =>
    right; left; rfl

theorem noNullStored_applyOp {V : Type} (op : Op V) (s : CacheState V)
    (h : NoNullStored s) : NoNullStored (applyOp op s) := by
  unfold NoNullStored at *
  rcases applyOp_cache_cases op s with hcc | hcc | ⟨key, hcc⟩ | ⟨key, v, hcc⟩ <;>
    intro p hp <;> rw [hcc] at hp
  · exact h p hp
  · simp at hp
  · exact h p (List.mem_of_mem_filter hp)
  · simp only [cacheSet, List.mem_cons] at hp
    rcases hp with rfl | hp'
    · rfl
    · exact h p (List.mem_of_mem_filter hp')

theorem noNullStored_foldl {V : Type} (ops : List (Op V)) (t : CacheState V)
    (h : NoNullStored t) :
    NoNullStored (ops.foldl (fun u op => applyOp op u) t) := by
  induction ops generalizing t with
  | nil => exact h
  | cons op rest ih => exact ih _ (noNullStored_applyOp op t h)

/-! ## Claims -/

/-- **C2.** When the loader promise for `key` resolves with `loadedItem`,
the resolved value is returned to the caller, the inflight entry for `key`
is removed, and the value is written to the LRU store exactly when it is
neither `null` nor `undefined`, the inflight table still contains the
entry, and the supervisor is not reconnecting or `allowStaleData` is
configured true. -/
theorem getOrLoadResolve_spec {V : Type} (key : String) (loadedItem : Option V)
    (s : CacheState V) :
    (getOrLoadResolve key loadedItem s).1 = loadedItem ∧
    ((getOrLoadResolve key loadedItem s).2).inflight
      = s.inflight.filter (fun k => k ≠ key) ∧
    ((getOrLoadResolve key loadedItem s).2).cache
      = if loadedItem.isSome = true ∧ s.inflight.contains key = true ∧
            (s.reconnecting = false ∨ s.allowStaleData = true)
        then cacheSet key loadedItem s.cache
        else s.cache := by
  refine ⟨rfl, ?_, ?_⟩
  · simp only [getOrLoadResolve]
    split <;> rfl
  · simp only [getOrLoadResolve]
    have hcond :
        ((s.allowStaleData || !s.reconnecting) && s.inflight.contains key
            && loadedItem.isSome) = true
          ↔ (loadedItem.isSome = true ∧ s.inflight.contains key = true ∧
              (s.reconnecting = false ∨ s.allowStaleData = true)) := by
      simp only [Bool.and_eq_true, Bool.or_eq_true, Bool.not_eq_true']
      tauto
    split
    · rw [if_pos (hcond.mp (by assumption))]
    · rw [if_neg (fun hc => (by assumption : ¬ _ = true) (hcond.mpr hc))]

/-- **C3.** A delivered message whose `x-cache-id` header equals the local
`cacheId` leaves the whole state (LRU store, inflight table and all) intact
and emits nothing; any other delivered message emits
`invalidation-message-received` with the message content and the
publisher's cache id. -/
theorem onMessage_self_echo_suppression {V : Type} (s : CacheState V) (m : Msg) :
    (m.publisherCacheId = s.cacheId → onMessage (some m) s = .ok (s, [])) ∧
    (m.publisherCacheId ≠ s.cacheId →
      (onMessage (some m) s).toOption.map Prod.snd =
        some [Event.invalidationMessageReceived m.content m.publisherCacheId]) := by
  constructor
  · intro h
    simp [onMessage, h]
  · intro h
    simp only [onMessage, beq_iff_eq, if_neg h]
    rfl

/-- Witness for C3: a self-echoed `reset` leaves a concrete state
unchanged, and a foreign `reset` is reported to listeners. -/
theorem onMessage_self_echo_suppression_witness :
    onMessage (some ⟨"reset", "id-a"⟩)
        (initState Nat "id-a" false false 10 0) =
      .ok (initState Nat "id-a" false false 10 0, []) ∧
    (onMessage (some ⟨"reset", "id-b"⟩)
        (initState Nat "id-a" false false 10 0)).toOption.map Prod.snd =
      some [Event.invalidationMessageReceived "reset" "id-b"] :=
  ⟨(onMessage_self_echo_suppression (initState Nat "id-a" false false 10 0)
      ⟨"reset", "id-a"⟩).1 rfl,
   (onMessage_self_echo_suppression (initState Nat "id-a" false false 10 0)
      ⟨"reset", "id-b"⟩).2 (by decide)⟩

/-- **C4.** When not closing, one `handleConnectionError` invocation first
sets `reconnecting`, clears the inflight table and LRU store, and only then
emits `reconnecting`; when the reattach succeeds it clears both again right
before emitting `reconnected`; in both outcomes the resulting state has an
empty store and inflight table, with `reconnecting` still set exactly when
the attempt failed.  None of this depends on `allowStaleData`. -/
theorem handleConnectionError_clears_before_emit {V : Type}
    (connectSucceeds : Bool) (attempt ri inc upTo : Nat) (s : CacheState V)
    (h : s.closing = false) :
    (∃ rest, (handleConnectionError connectSucceeds attempt ri inc upTo s).2 =
      [SupAction.setReconnecting true, SupAction.clearState,
       SupAction.emitReconnecting (attempt + 1) ri] ++ rest) ∧
    (connectSucceeds = true →
      ∃ pre, (handleConnectionError connectSucceeds attempt ri inc upTo s).2 =
        pre ++ [SupAction.setReconnecting false, SupAction.clearState,
                SupAction.emitReconnected (attempt + 1) ri]) ∧
    ((handleConnectionError connectSucceeds attempt ri inc upTo s).1).cache = [] ∧
    ((handleConnectionError connectSucceeds attempt ri inc upTo s).1).inflight = [] ∧
    ((handleConnectionError connectSucceeds attempt ri inc upTo s).1).reconnecting
      = !connectSucceeds := by
  cases connectSucceeds with
  | false => simp [handleConnectionError, h, internalReset]
  | true =>
    simp [handleConnectionError, h, internalReset]
    exact ⟨[SupAction.setReconnecting true, SupAction.clearState,
      SupAction.emitReconnecting (attempt + 1) ri], rfl⟩

/-- Witness for C4 at a concrete state and both attempt outcomes. -/
theorem handleConnectionError_clears_before_emit_witness :
    (initState Nat "id-a" true false 10 0).closing = false ∧
    ((handleConnectionError true 0 0 1000 60000
        (initState Nat "id-a" true false 10 0)).1).cache = [] ∧
    ((handleConnectionError false 0 0 1000 60000
        (initState Nat "id-a" true false 10 0)).1).reconnecting = true :=
  ⟨rfl,
   (handleConnectionError_clears_before_emit true 0 0 1000 60000
      (initState Nat "id-a" true false 10 0) rfl).2.2.1,
   (handleConnectionError_clears_before_emit false 0 0 1000 60000
      (initState Nat "id-a" true false 10 0) rfl).2.2.2.2⟩

/-- **C6.** While reconnecting (and not closing), `del` and `reset` publish
nothing on the bus, yet the local mutation still applies: `del key` removes
`key` from both the LRU store and the inflight table, and `reset` clears
both. -/
theorem publish_dropped_while_reconnecting {V : Type} (key : String)
    (s : CacheState V) (hclose : s.closing = false)
    (hrec : s.reconnecting = true) :
    del key s = .ok ({ s with
        inflight := s.inflight.filter (fun k => k ≠ key),
        cache := s.cache.filter (fun p => p.1 ≠ key) }, none) ∧
    reset s = .ok ({ s with inflight := [], cache := [] }, none) := by
  constructor
  · simp [del, assertIsClosingOrClosed, hclose, publish, hrec, internalDel,
      Except.pure]
  · simp [reset, assertIsClosingOrClosed, hclose, publish, hrec, internalReset,
      Except.pure]

/-- Witness for C6 at a concrete reconnecting state holding one entry. -/
theorem publish_dropped_while_reconnecting_witness :
    del "k" { initState Nat "id-a" false false 10 0 with
        reconnecting := true, cache := [("k", some 7)] } =
      .ok ({ initState Nat "id-a" false false 10 0 with
        reconnecting := true }, none) :=
  (publish_dropped_while_reconnecting "k"
    { initState Nat "id-a" false false 10 0 with
        reconnecting := true, cache := [("k", some 7)] } rfl rfl).1

/-- **C9.** `del key` is idempotent: running it a second time from the
state the first run produced returns that very state (and republishes the
same message), and on a peer, applying a second `del:<key>` bus message to
the state produced by the first application leaves that state unchanged. -/
theorem del_idempotent {V : Type} (key : String) (s p : CacheState V) (m : Msg)
    (_hm : m.content = "del:" ++ key) :
    (∀ t out, del key s = .ok (t, out) → del key t = .ok (t, out)) ∧
    (∀ q evs, onMessage (some m) p = .ok (q, evs) →
      (onMessage (some m) q).toOption.map Prod.fst = some q) := by
  constructor
  · intro t out h
    have hclose : s.closing = false := by
      by_contra hc
      rw [Bool.not_eq_false] at hc
      simp [del, assertIsClosingOrClosed, hc] at h
    have hok : t = internalDel key s ∧ out = publish ("del:" ++ key) s := by
      simpa [del, assertIsClosingOrClosed, hclose, Except.pure, and_comm]
        using h.symm
    have hrec : t.reconnecting = s.reconnecting := by
      rw [hok.1]; rfl
    have hid : t.cacheId = s.cacheId := by
      rw [hok.1]; rfl
    have htclose : t.closing = false := by
      rw [hok.1]; exact hclose
    simp only [del, assertIsClosingOrClosed, htclose, if_neg Bool.false_ne_true,
      publish, hrec, hid]
    rw [hok.1, internalDel_idem, hok.2]
    simp [del, assertIsClosingOrClosed, hclose, publish, Except.pure]
  · intro q evs h
    by_cases hpq : m.publisherCacheId = p.cacheId
    · obtain ⟨hq, -⟩ : p = q ∧ ([] : List Event) = evs := by
        simpa [onMessage, hpq] using h
      subst hq
      simp [onMessage, hpq]
      exact ⟨_, rfl⟩
    · by_cases hres : m.content = "reset"
      · obtain ⟨hq, -⟩ : internalReset p = q ∧ _ = evs := by
          simpa [onMessage, hpq, hres] using h
        subst hq
        simp [onMessage, hpq, hres, internalReset]
        exact ⟨_, rfl⟩
      · by_cases hpre : m.content.startsWith "del:" = true
        · obtain ⟨hq, -⟩ : internalDel (m.content.drop 4) p = q ∧ _ = evs := by
            simpa [onMessage, hpq, hres, hpre] using h
          subst hq
          simp [onMessage, hpq, hres, hpre, internalDel, filter_idem]
          exact ⟨_, rfl⟩
        · obtain ⟨hq, -⟩ : p = q ∧ _ = evs := by
            simpa [onMessage, hpq, hres, hpre] using h
          subst hq
          simp [onMessage, hpq, hres, hpre]
          exact ⟨_, rfl⟩

/-- Witness for C9: deleting `"k"` from a state already lacking `"k"`
(the result of a first `del "k"`) returns that state and the same message. -/
theorem del_idempotent_witness :
    del "k" (initState Nat "id-a" false false 10 0) =
      .ok (initState Nat "id-a" false false 10 0, some ⟨"del:k", "id-a"⟩) :=
  (del_idempotent "k"
      { initState Nat "id-a" false false 10 0 with cache := [("k", some 5)] }
      (initState Nat "id-a" false false 10 0) ⟨"del:k", "id-b"⟩ rfl).1
    (initState Nat "id-a" false false 10 0) (some ⟨"del:k", "id-a"⟩) rfl

/-- **C5 counterexample.** After `close`, the listener operations do *not*
raise `ClosingError`: on a concrete closed state,
`addInvalidationMessageReceivedListener` succeeds, because the source
performs no closing assertion in any of the six listener add/remove
operations (`rabbit-lru-cache.ts:255`–`272`). -/
theorem listener_op_after_close_succeeds :
    (close (initState Nat "id-a" false false 10 0)).closing = true ∧
    addInvalidationMessageReceivedListener 7
        (close (initState Nat "id-a" false false 10 0)) =
      .ok { close (initState Nat "id-a" false false 10 0) with
              invalidationListeners := [7] } :=
  ⟨rfl, rfl⟩

/-- **C5 (amended).** Once `close` has been invoked (`closing = true`),
every user-facing operation other than `close` itself *and the six listener
add/remove operations* raises `ClosingError` (`getOrLoad`, `del`, `reset`,
`has`, `keys`, `doesAllowStale`, `getItemCount`, `getLength`, `getMax`,
`getMaxAge`, `prune`); the six listener operations instead succeed,
mutating only the listener registries. -/
theorem closed_ops_raise_closing_error {V : Type} (s : CacheState V)
    (key : String) (fn : Nat) (h : s.closing = true) :
    getOrLoadBegin key s = .error ⟨"Cache is closing or has been closed"⟩ ∧
    del key s = .error ⟨"Cache is closing or has been closed"⟩ ∧
    reset s = .error ⟨"Cache is closing or has been closed"⟩ ∧
    hasOp key s = .error ⟨"Cache is closing or has been closed"⟩ ∧
    keysOp s = .error ⟨"Cache is closing or has been closed"⟩ ∧
    doesAllowStale s = .error ⟨"Cache is closing or has been closed"⟩ ∧
    getItemCount s = .error ⟨"Cache is closing or has been closed"⟩ ∧
    getLength s = .error ⟨"Cache is closing or has been closed"⟩ ∧
    getMax s = .error ⟨"Cache is closing or has been closed"⟩ ∧
    getMaxAge s = .error ⟨"Cache is closing or has been closed"⟩ ∧
    prune s = .error ⟨"Cache is closing or has been closed"⟩ ∧
    addInvalidationMessageReceivedListener fn s =
      .ok { s with invalidationListeners := s.invalidationListeners ++ [fn] } ∧
    removeInvalidationMessageReceivedListener fn s =
      .ok { s with invalidationListeners := s.invalidationListeners.erase fn } ∧
    addReconnectingListener fn s =
      .ok { s with reconnectingListeners := s.reconnectingListeners ++ [fn] } ∧
    removeReconnectingListener fn s =
      .ok { s with reconnectingListeners := s.reconnectingListeners.erase fn } ∧
    addReconnectedListener fn s =
      .ok { s with reconnectedListeners := s.reconnectedListeners ++ [fn] } ∧
    removeReconnectedListener fn s =
      .ok { s with reconnectedListeners := s.reconnectedListeners.erase fn } := by
  refine ⟨?_, ?_, ?_, ?_, ?_, ?_, ?_, ?_, ?_, ?_, ?_,
    rfl, rfl, rfl, rfl, rfl, rfl⟩ <;>
    simp [getOrLoadBegin, del, reset, hasOp, keysOp, doesAllowStale,
      getItemCount, getLength, getMax, getMaxAge, prune,
      assertIsClosingOrClosed, h, Except.instMonad, Except.bind]

/-- Witness for the amended C5 at a concrete closed state. -/
theorem closed_ops_raise_closing_error_witness :
    del "k" (close (initState Nat "id-a" false false 10 0)) =
      .error ⟨"Cache is closing or has been closed"⟩ :=
  (closed_ops_raise_closing_error
    (close (initState Nat "id-a" false false 10 0)) "k" 0 rfl).2.1

/-- **C7 counterexample.** With `retryIntervalIncrease = 1000` and
`retryIntervalUpTo = 1500` (both positive), the interval passed to the
third invocation in an episode is `2000 > 1500`: the catch block increments
whenever the interval is still strictly below the cap, so the sequence can
overshoot `retryIntervalUpTo` when the cap is not a multiple of the
increase. -/
theorem retry_interval_exceeds_cap :
    retrySeq 1000 1500 2 = 2000 ∧ 1500 < 2000 := by
  decide

/-- **C7 (amended).** Within one reconnect episode the retry interval
starts at 0 and forms the sequence `0, inc, 2*inc, …` for as long as it
stays below `retryIntervalUpTo`; each failed attempt adds
`retryIntervalIncrease` while the interval is strictly below
`retryIntervalUpTo`, and once it reaches or exceeds `retryIntervalUpTo` it
stays constant; it never exceeds `retryIntervalUpTo - 1 +
retryIntervalIncrease` (it can exceed `retryIntervalUpTo` itself by up to
`retryIntervalIncrease - 1` when the cap is not a multiple of the
increase). -/
theorem retry_backoff_linear_capped (inc upTo : Nat)
    (_hinc : 0 < inc) (_hup : 0 < upTo) :
    retrySeq inc upTo 0 = 0 ∧
    (∀ n, (∀ m, m < n → m * inc < upTo) → retrySeq inc upTo n = n * inc) ∧
    (∀ n, retrySeq inc upTo n < upTo →
      retrySeq inc upTo (n + 1) = retrySeq inc upTo n + inc) ∧
    (∀ n, upTo ≤ retrySeq inc upTo n →
      retrySeq inc upTo (n + 1) = retrySeq inc upTo n) ∧
    (∀ n, retrySeq inc upTo n ≤ upTo - 1 + inc) := by
  refine ⟨rfl, ?_, ?_, ?_, ?_⟩
  · intro n
    induction n with
    | zero => intro _; simp [retrySeq]
    | succ k ih =>
      intro hbelow
      have hk := ih (fun m hm => hbelow m (Nat.lt_succ_of_lt hm))
      have hlt : k * inc < upTo := hbelow k (Nat.lt_succ_self k)
      simp [retrySeq, retryStep, hk, hlt, Nat.succ_mul]
  · intro n hlt
    simp [retrySeq, retryStep, hlt]
  · intro n hge
    simp [retrySeq, retryStep, Nat.not_lt.mpr hge]
  · intro n
    induction n with
    | zero => exact Nat.zero_le _
    | succ k ih =>
      simp only [retrySeq, retryStep]
      split
      · omega
      · exact ih

/-- Witness for the amended C7 at the counterexample's parameters. -/
theorem retry_backoff_linear_capped_witness :
    0 < 1000 ∧ 0 < 1500 ∧ retrySeq 1000 1500 2 ≤ 1500 - 1 + 1000 :=
  ⟨by decide, by decide,
   (retry_backoff_linear_capped 1000 1500 (by decide) (by decide)).2.2.2.2 2⟩

/-- **C1.** If `n + 1` `getOrLoad` begin phases for `key` run back to back
from a state where `key` is absent from the LRU store and has no pending
promise, the first caller starts the loader and registers its promise, and
every later caller joins (awaits) that same pending promise: the loader is
started exactly once. -/
theorem getOrLoad_coalesces {V : Type} (key : String) (n : Nat)
    (s : CacheState V) (hclose : s.closing = false)
    (habsent : s.cacheGet key = none)
    (hnin : s.inflight.contains key = false) :
    beginMany key (n + 1) s =
      (LoadOutcome.startLoad :: List.replicate n LoadOutcome.join,
        { s with inflight := key :: s.inflight }) ∧
    (beginMany key (n + 1) s).1.countP LoadOutcome.isStartLoad = 1 := by
  have h1 := getOrLoadBegin_startLoad key s hclose habsent hnin
  have h2 := beginMany_all_join key n { s with inflight := key :: s.inflight }
    hclose habsent (by simp)
  have hall : beginMany key (n + 1) s =
      (LoadOutcome.startLoad :: List.replicate n LoadOutcome.join,
        { s with inflight := key :: s.inflight }) := by
    simp [beginMany, h1, h2]
  refine ⟨hall, ?_⟩
  rw [hall]
  simp [List.countP_cons, countP_startLoad_replicate_join, LoadOutcome.isStartLoad]

/-- Witness for C1: three concurrent begin phases on a fresh instance start
the loader exactly once. -/
theorem getOrLoad_coalesces_witness :
    (beginMany "k" 3 (initState Nat "id-a" false false 10 0)).1.countP
      LoadOutcome.isStartLoad = 1 :=
  (getOrLoad_coalesces "k" 2 (initState Nat "id-a" false false 10 0)
    rfl rfl rfl).2

/-- **C10.** In every reachable state the LRU store holds no
`null`/`undefined` value under any key: the only inserting operation is the
resolution phase of `getOrLoad`, whose guard requires a well-defined value,
so a `cache.get` returning `some none` (a stored empty value) is
impossible — an empty read always means the key is absent. -/
theorem lru_store_never_holds_null {V : Type} (s : CacheState V)
    (h : Reachable s) :
    NoNullStored s ∧ ∀ key, s.cacheGet key ≠ some none := by
  obtain ⟨cid, asd, las, m1, m2, ops, rfl⟩ := h
  have hn := noNullStored_foldl ops (initState V cid asd las m1 m2)
    (by intro p hp; simp [initState] at hp)
  refine ⟨hn, ?_⟩
  intro key hk
  unfold CacheState.cacheGet at hk
  rcases hf : List.find?
      (fun p => p.1 == key)
      ((ops.foldl (fun u op => applyOp op u)
        (initState V cid asd las m1 m2)).cache) with - | p
  · rw [hf] at hk
    exact Option.noConfusion hk
  · rw [hf] at hk
    have hmem := List.mem_of_find?_eq_some hf
    have hsome := hn p hmem
    have : p.2 = none := by
      simpa using hk
    rw [this] at hsome
    exact Bool.noConfusion hsome

/-- Witness for C10: a fresh instance is reachable and a read of an absent
key is not a stored empty value. -/
theorem lru_store_never_holds_null_witness :
    (initState Nat "id-a" false false 10 0).cacheGet "k" ≠ some none :=
  (lru_store_never_holds_null (initState Nat "id-a" false false 10 0)
    ⟨"id-a", false, false, 10, 0, [], rfl⟩).2 "k"

end RabbitLRU
